import Mathlib

/-!
Verification of the request/pagination engine of the `renderapi` client
library (`src/index.ts`).

The development shallowly embeds the JavaScript/TypeScript source:

* JS strings are Lean `String`s; `String.prototype.startsWith`,
  `String.prototype.slice(-6)` and substring search are embedded on the
  underlying character lists.
* JS parameter-bag objects (`Record<string, string | string[] | undefined>`)
  are association lists from keys to optional values, preserving insertion
  order; property assignment (`params.limit = "100"`,
  `filteredParams.cursor = ...`) is embedded by `setKey`.
* The `while (true)` pagination loop of `renderGetPaged` is embedded as a
  recursion over the finite list of pages a mock server answers with; the
  embedding records every request's parameter map so that cursor threading
  and request counts can be stated.
* The resolver `determineService` is embedded over an abstract server state
  (the list of service-cursor envelopes the paged fetch would return) and an
  abstract name-match predicate standing for JS `String.prototype.match`.
-/

/-- Embedding of JS `s.startsWith(p)`: `p`'s characters are a prefix of `s`'s. -/
def jsStartsWith (s p : String) : Bool :=
  p.data.isPrefixOf s.data

/-- Embedding of JS `s.slice(-6)`: the last six characters of `s`
(the whole string when `s` has at most six characters). -/
def jsSliceNeg6 (s : String) : String :=
  ⟨s.data.drop (s.data.length - 6)⟩

/-- Substring test on character lists: does `needle` occur contiguously in
the haystack? -/
def isSubList (needle : List Char) : List Char → Bool
  | [] => needle.isPrefixOf []
  | c :: t => needle.isPrefixOf (c :: t) || isSubList needle t

/-- Embedding of JS `hay.includes(needle)`: substring occurrence. -/
def strContains (hay needle : String) : Bool :=
  isSubList needle.data hay.data

/-- Embedding of JS `Array.prototype.join(sep)` on an array of strings. -/
def jsJoin (sep : String) : List String → String
  | [] => ""
  | [x] => x
  | x :: y :: xs => x ++ sep ++ jsJoin sep (y :: xs)

/-- Error message thrown by `renderGet` and `renderGetPaged` on a non-2xx
response (src/index.ts lines 56-61 and 138-143). -/
def fetchErrorMessage (statusText url token errorBody : String) : String :=
  "Unable to fetch data from render " ++ statusText ++ "\nurl: " ++ url ++
    "\napi key: *****" ++ jsSliceNeg6 token ++ "\n" ++ errorBody

/-- Error message thrown by `renderPost` on a non-2xx response
(src/index.ts lines 175-180). -/
def postErrorMessage (statusText url token errorBody : String) : String :=
  "Unable to fetch post data from render " ++ statusText ++ "\nurl: " ++ url ++
    "\napi key: *****" ++ jsSliceNeg6 token ++ "\n" ++ errorBody

inductive PValue
  | str (s : String)
  | arr (l : List String)
deriving DecidableEq, Repr

abbrev ParamBag := List (String × Option PValue)

def truthy : Option PValue → Bool
  | none => false
  | some (.str s) => !(s == "")
  | some (.arr _) => true

def getVal (ps : ParamBag) (k : String) : Option PValue :=
  (ps.lookup k).join

def setKey {α : Type} (ps : List (String × α)) (k : String) (v : α) :
    List (String × α) :=
  if ps.any (fun p => p.1 == k) then
    ps.map (fun p => if p.1 == k then (k, v) else p)
  else ps ++ [(k, v)]

def injectLimit (ps : ParamBag) : ParamBag :=
  if truthy (getVal ps "limit") then ps
  else setKey ps "limit" (some (.str "100"))

def filterParamsPaged (ps : ParamBag) : List (String × PValue) :=
  ps.filterMap (fun p => p.2.map (fun v => (p.1, v)))

def filterParamsGet (ps : ParamBag) : List (String × PValue) :=
  ps.filterMap (fun p =>
    match p.2 with
    | none => none
    | some (.arr []) => none
    | some v => some (p.1, v))

def serializeValue : PValue → String
  | .str s => s
  | .arr l => jsJoin "," l

def queryPairsGet (ps : ParamBag) : List (String × String) :=
  (filterParamsGet (injectLimit ps)).map (fun p => (p.1, serializeValue p.2))

abbrev NodupKeys {α : Type} (ps : List (String × α)) : Prop :=
  (ps.map Prod.fst).Nodup

def keyedFilterMap {α β : Type} (f : α → Option β) (ps : List (String × α)) :
    List (String × β) :=
  ps.filterMap (fun p => (f p.2).map (fun b => (p.1, b)))

def gGet : Option PValue → Option String
  | none => none
  | some (PValue.arr []) => none
  | some v => some (serializeValue v)

structure PageItem where
  cursor : String
  payload : Nat
deriving DecidableEq, Repr

def runPaged : List (List PageItem) → List (String × String) →
    List PageItem × List (List (String × String))
  | [], ps => ([], [ps])
  | page :: rest, ps =>
    if h : page = [] then ([], [ps])
    else
      (page ++ (runPaged rest (setKey ps "cursor" (page.getLast h).cursor)).1,
        ps :: (runPaged rest (setKey ps "cursor" (page.getLast h).cursor)).2)

/-- Pages of sizes 2, 2, 0 answered by a mock server, each element carrying
its pagination cursor. -/
def pagesTwoTwoZero : List (List PageItem) :=
  [[⟨"c1", 1⟩, ⟨"c2", 2⟩], [⟨"c3", 3⟩, ⟨"c4", 4⟩], []]

/-- Initial filtered parameter map of `renderGetPaged`, as built from the
caller's bag before the loop starts. -/
def initParamsPaged (ps : ParamBag) : List (String × String) :=
  (filterParamsPaged (injectLimit ps)).map (fun p => (p.1, serializeValue p.2))

def isServiceID (s : String) : Bool := jsStartsWith s "srv-"

def isEnvironmentID (s : String) : Bool := jsStartsWith s "evm-"

def isCronID (s : String) : Bool := jsStartsWith s "crn-"

def isJobID (s : String) : Bool := jsStartsWith s "job-"

def isRedisID (s : String) : Bool := jsStartsWith s "red-"

def isPostgresID (s : String) : Bool := jsStartsWith s "dpg-"

def isEnvironmentGroupID (s : String) : Bool := jsStartsWith s "evg-"

def isRegistryCredentialID (s : String) : Bool := jsStartsWith s "rgc-"

def idClassifiers : List (String → Bool) :=
  [isServiceID, isEnvironmentID, isCronID, isJobID, isRedisID, isPostgresID,
   isEnvironmentGroupID, isRegistryCredentialID]

def idPrefixTags : List String :=
  ["srv", "evm", "crn", "job", "red", "dpg", "evg", "rgc"]

structure Service where
  id : String
  name : String
deriving DecidableEq, Repr

structure ServiceCursor where
  cursor : String
  service : Service
deriving DecidableEq, Repr

def getServices (matchPred : String → String → Bool)
    (serviceObjs : List ServiceCursor) (nameFilter : String) : List Service :=
  let services := serviceObjs.map (fun s => s.service)
  if nameFilter == "" then services
  else services.filter (fun s => matchPred s.name nameFilter)

inductive DSOutcome
  | fetchById (id : String)
  | ok (s : Service)
  | errNotFound (msg : String)
  | errAmbiguous (msg : String)
deriving DecidableEq, Repr

def determineService (matchPred : String → String → Bool)
    (serviceObjs : List ServiceCursor) (input : String) : DSOutcome :=
  if isServiceID input then .fetchById input
  else
    let services := getServices matchPred serviceObjs input
    if h0 : services.length = 0 then
      .errNotFound ("No services found with ID or name " ++ input)
    else if services.length ≠ 1 then
      match services.find? (fun s => s.name == input) with
      | some s => .ok s
      | none => .errAmbiguous ("Too many services found with " ++ input ++ ":\n" ++
          jsJoin "  \n" (services.map (fun s => s.name ++ " (" ++ s.id ++ ")")))
    else .ok (services.head (fun hnil => h0 (by rw [hnil]; rfl)))

def jsMatchSubstring (name pattern : String) : Bool := strContains name pattern

def fooServiceObjs : List ServiceCursor :=
  [⟨"cur1", ⟨"srv-1", "foo-prod"⟩⟩,
   ⟨"cur2", ⟨"srv-2", "foo-prod-staging"⟩⟩,
   ⟨"cur3", ⟨"srv-3", "foo-prod-canary"⟩⟩]

theorem isSubList_iff_infix (n h : List Char) : isSubList n h = true ↔ n <:+: h := by
  induction h with
  | nil =>
    cases n <;> simp [isSubList, List.isPrefixOf]
  | cons c t ih =>
    simp [isSubList, Bool.or_eq_true, ih, List.isPrefixOf_iff_prefix,
      List.infix_cons_iff]

theorem strContains_refl (s : String) : strContains s s = true := by
  rw [strContains, isSubList_iff_infix]

theorem strContains_append_left (s t n : String) (h : strContains t n = true) :
    strContains (s ++ t) n = true := by
  rw [strContains, isSubList_iff_infix] at h ⊢
  rw [String.data_append]
  exact h.trans ((List.suffix_append s.data t.data).isInfix)

theorem strContains_append_right (s t n : String) (h : strContains s n = true) :
    strContains (s ++ t) n = true := by
  rw [strContains, isSubList_iff_infix] at h ⊢
  rw [String.data_append]
  exact h.trans ((List.prefix_append s.data t.data).isInfix)

theorem string_append_assoc (a b c : String) : a ++ b ++ c = a ++ (b ++ c) := by
  apply String.ext
  simp [String.data_append, List.append_assoc]

theorem apiKey_split (A slice r1 r2 : String) :
    strContains ((((A ++ "\napi key: *****") ++ slice) ++ r1) ++ r2)
      ("*****" ++ slice) = true := by
  apply strContains_append_right
  apply strContains_append_right
  have hL3 : ("\napi key: *****" : String) = "\napi key: " ++ "*****" := rfl
  have h3 : (A ++ "\napi key: *****") ++ slice =
      (A ++ "\napi key: ") ++ ("*****" ++ slice) := by
    rw [hL3, ← string_append_assoc A "\napi key: " "*****",
      string_append_assoc (A ++ "\napi key: ") "*****" slice]
  rw [h3]
  apply strContains_append_left
  exact strContains_refl _

theorem template_contains (pre st url token body : String) :
    strContains (pre ++ st ++ "\nurl: " ++ url ++ "\napi key: *****" ++
        jsSliceNeg6 token ++ "\n" ++ body) st = true ∧
    strContains (pre ++ st ++ "\nurl: " ++ url ++ "\napi key: *****" ++
        jsSliceNeg6 token ++ "\n" ++ body) url = true ∧
    strContains (pre ++ st ++ "\nurl: " ++ url ++ "\napi key: *****" ++
        jsSliceNeg6 token ++ "\n" ++ body) body = true ∧
    strContains (pre ++ st ++ "\nurl: " ++ url ++ "\napi key: *****" ++
        jsSliceNeg6 token ++ "\n" ++ body) ("*****" ++ jsSliceNeg6 token) = true := by
  refine ⟨?_, ?_, ?_, ?_⟩
  · apply strContains_append_right
    apply strContains_append_right
    apply strContains_append_right
    apply strContains_append_right
    apply strContains_append_right
    apply strContains_append_right
    apply strContains_append_left
    exact strContains_refl _
  · apply strContains_append_right
    apply strContains_append_right
    apply strContains_append_right
    apply strContains_append_right
    apply strContains_append_left
    exact strContains_refl _
  · apply strContains_append_left
    exact strContains_refl _
  · exact apiKey_split (pre ++ st ++ "\nurl: " ++ url) (jsSliceNeg6 token) "\n" body

/-- C1: every non-2xx response makes `renderGet`, `renderGetPaged` and
`renderPost` throw an error whose message contains the HTTP status text, the
fully-qualified request URL, the raw response body, and the redacted token
`*****` followed by the last six characters of the token; for the token
`"supersecrettoken123456"` the message contains `*****123456` and (with the
other message components free of the token) never the prefix `supersecret`. -/
theorem requestError_message_contains_status_url_body_and_redacted_token :
    (∀ statusText url token errorBody : String,
      strContains (fetchErrorMessage statusText url token errorBody) statusText = true ∧
      strContains (fetchErrorMessage statusText url token errorBody) url = true ∧
      strContains (fetchErrorMessage statusText url token errorBody) errorBody = true ∧
      strContains (fetchErrorMessage statusText url token errorBody)
        ("*****" ++ jsSliceNeg6 token) = true ∧
      strContains (postErrorMessage statusText url token errorBody) statusText = true ∧
      strContains (postErrorMessage statusText url token errorBody) url = true ∧
      strContains (postErrorMessage statusText url token errorBody) errorBody = true ∧
      strContains (postErrorMessage statusText url token errorBody)
        ("*****" ++ jsSliceNeg6 token) = true) ∧
    jsSliceNeg6 "supersecrettoken123456" = "123456" ∧
    strContains (fetchErrorMessage "Unauthorized"
      "https://api.render.com/v1/services?limit=100" "supersecrettoken123456"
      "unauthorized") "*****123456" = true ∧
    strContains (fetchErrorMessage "Unauthorized"
      "https://api.render.com/v1/services?limit=100" "supersecrettoken123456"
      "unauthorized") "supersecret" = false ∧
    strContains (postErrorMessage "Unauthorized"
      "https://api.render.com/v1/services?limit=100" "supersecrettoken123456"
      "unauthorized") "*****123456" = true ∧
    strContains (postErrorMessage "Unauthorized"
      "https://api.render.com/v1/services?limit=100" "supersecrettoken123456"
      "unauthorized") "supersecret" = false := by
  refine ⟨?_, by decide, by decide, by decide, by decide, by decide⟩
  intro st url token body
  have hf := template_contains "Unable to fetch data from render " st url token body
  have hp := template_contains "Unable to fetch post data from render " st url token body
  exact ⟨hf.1, hf.2.1, hf.2.2.1, hf.2.2.2, hp.1, hp.2.1, hp.2.2.1, hp.2.2.2⟩

theorem lookup_update_self {α : Type} (t : List (String × α)) (k0 : String) (v : α)
    (hany : (t.any fun p => p.1 == k0) = true) :
    (t.map (fun p => if p.1 == k0 then (k0, v) else p)).lookup k0 = some v := by
  induction t with
  | nil => simp at hany
  | cons p t ih =>
    obtain ⟨k1, v1⟩ := p
    by_cases h1 : k1 = k0
    · subst h1
      simp
    · rw [List.any_cons] at hany
      rcases Bool.or_eq_true_iff.mp hany with h | h
      · exact absurd (by simpa using h) h1
      · have hb1 : ((k1, v1).1 == k0) = false := by simpa using h1
        have hb2 : (k0 == k1) = false := by simpa using Ne.symm h1
        simp only [List.map_cons, hb1, Bool.false_eq_true, if_false, List.lookup_cons, hb2]
        exact ih h

theorem lookup_update_ne {α : Type} (t : List (String × α)) (k0 k : String) (v : α)
    (h : k ≠ k0) :
    (t.map (fun p => if p.1 == k0 then (k0, v) else p)).lookup k = t.lookup k := by
  induction t with
  | nil => rfl
  | cons p t ih =>
    obtain ⟨k1, v1⟩ := p
    by_cases h1 : k1 = k0
    · subst h1
      have hb : (k == k1) = false := by simpa using h
      simp only [List.map_cons, if_pos (by simp : ((k1, v1).1 == k1) = true),
        List.lookup_cons, hb]
      exact ih
    · have hb1 : ((k1, v1).1 == k0) = false := by simpa using h1
      simp only [List.map_cons, hb1, Bool.false_eq_true, if_false, List.lookup_cons]
      by_cases h2 : k = k1
      · have hb2 : (k == k1) = true := by simpa using h2
        simp only [hb2]
      · have hb2 : (k == k1) = false := by simpa using h2
        simp only [hb2]
        exact ih

theorem lookup_setKey_self {α : Type} (ps : List (String × α)) (k : String) (v : α) :
    (setKey ps k v).lookup k = some v := by
  rw [setKey]
  split
  · exact lookup_update_self ps k v (by assumption)
  · rename_i hany
    rw [List.lookup_append]
    have hnone : ps.lookup k = none := by
      rw [List.lookup_eq_none_iff]
      intro p hp
      by_contra hc
      exact hany (List.any_eq_true.mpr ⟨p, hp, by simpa using (by simpa using hc : k = p.1).symm⟩)
    simp [hnone]

theorem lookup_setKey_ne {α : Type} (ps : List (String × α)) (k0 k : String) (v : α)
    (h : k ≠ k0) : (setKey ps k0 v).lookup k = ps.lookup k := by
  rw [setKey]
  split
  · exact lookup_update_ne ps k0 k v h
  · rw [List.lookup_append]
    cases hl : ps.lookup k with
    | none =>
      have hb : (k == k0) = false := by simpa using h
      simp [List.lookup_cons, hb]
    | some b => simp

theorem lookup_injectLimit (ps : ParamBag) (k : String) :
    (injectLimit ps).lookup k =
      if k = "limit" ∧ truthy (getVal ps "limit") = false
      then some (some (PValue.str "100")) else ps.lookup k := by
  rw [injectLimit]
  split
  · rename_i htr
    rw [if_neg]
    rintro ⟨-, hf⟩
    rw [htr] at hf
    cases hf
  · rename_i htr
    by_cases hk : k = "limit"
    · subst hk
      rw [lookup_setKey_self, if_pos ⟨rfl, by simpa using htr⟩]
    · rw [lookup_setKey_ne _ _ _ _ hk, if_neg (fun hc => hk hc.1)]

theorem nodupKeys_injectLimit (ps : ParamBag) (h : NodupKeys ps) :
    NodupKeys (injectLimit ps) := by
  rw [injectLimit]
  split
  · exact h
  · rw [setKey]
    split
    · rename_i hany
      have hkeys : (ps.map (fun p =>
          if p.1 == "limit" then ("limit", some (PValue.str "100")) else p)).map Prod.fst =
          ps.map Prod.fst := by
        rw [List.map_map]
        apply List.map_congr_left
        intro p _
        by_cases hp : p.1 = "limit"
        · simp [hp]
        · simp [hp]
      unfold NodupKeys
      rw [hkeys]
      exact h
    · rename_i hany
      unfold NodupKeys
      rw [List.map_append]
      rw [List.nodup_append]
      refine ⟨h, List.nodup_singleton _, ?_⟩
      intro a ha hb
      simp only [List.map_cons, List.map_nil, List.mem_singleton] at hb
      subst hb
      rcases List.mem_map.mp ha with ⟨p, hp, hfst⟩
      exact hany (List.any_eq_true.mpr ⟨p, hp, by simpa using hfst⟩)

theorem lookup_keyedFilterMap {α β : Type} (f : α → Option β)
    (ps : List (String × α)) (hnd : (ps.map Prod.fst).Nodup) (k : String) :
    (keyedFilterMap f ps).lookup k = (ps.lookup k).bind f := by
  induction ps with
  | nil => rfl
  | cons p t ih =>
    obtain ⟨k1, a⟩ := p
    rw [List.map_cons, List.nodup_cons] at hnd
    obtain ⟨hk1, hnd'⟩ := hnd
    by_cases hk : k = k1
    · subst hk
      cases hf : f a with
      | some b =>
        simp only [keyedFilterMap, List.filterMap_cons, hf, Option.map_some']
        simp [hf]
      | none =>
        simp only [keyedFilterMap, List.filterMap_cons, hf, Option.map_none']
        have : (keyedFilterMap f t).lookup k = none := by
          rw [ih hnd']
          have : t.lookup k = none := by
            rw [List.lookup_eq_none_iff]
            intro q hq
            have : q.1 ∈ t.map Prod.fst := List.mem_map.mpr ⟨q, hq, rfl⟩
            simp only [bne_iff_ne, ne_eq]
            intro hc
            exact hk1 (hc ▸ this)
          rw [this]
          rfl
        rw [keyedFilterMap] at this
        rw [this]
        simp [hf]
    · have hb : (k == k1) = false := by simpa using hk
      cases hf : f a with
      | some b =>
        simp only [keyedFilterMap, List.filterMap_cons, hf, Option.map_some']
        rw [List.lookup_cons, List.lookup_cons]
        simp only [hb]
        exact ih hnd'
      | none =>
        simp only [keyedFilterMap, List.filterMap_cons, hf, Option.map_none']
        rw [List.lookup_cons]
        simp only [hb]
        exact ih hnd'

theorem countP_keyedFilterMap {α β : Type} (f : α → Option β)
    (ps : List (String × α)) (hnd : (ps.map Prod.fst).Nodup) (k : String) :
    (keyedFilterMap f ps).countP (fun p => p.1 == k) =
      if ((ps.lookup k).bind f).isSome then 1 else 0 := by
  induction ps with
  | nil => rfl
  | cons p t ih =>
    obtain ⟨k1, a⟩ := p
    rw [List.map_cons, List.nodup_cons] at hnd
    obtain ⟨hk1, hnd'⟩ := hnd
    have htnone : k1 ∉ t.map Prod.fst → t.lookup k1 = none := by
      intro hnm
      rw [List.lookup_eq_none_iff]
      intro q hq
      simp only [bne_iff_ne, ne_eq]
      intro hc
      exact hnm (hc ▸ List.mem_map.mpr ⟨q, hq, rfl⟩)
    by_cases hk : k = k1
    · subst hk
      cases hf : f a with
      | some b =>
        simp only [keyedFilterMap, List.filterMap_cons, hf, Option.map_some']
        rw [List.countP_cons]
        have h0 : (keyedFilterMap f t).countP (fun p => p.1 == k) = 0 := by
          rw [ih hnd', htnone hk1]
          rfl
        rw [keyedFilterMap] at h0
        rw [h0]
        simp [hf]
      | none =>
        simp only [keyedFilterMap, List.filterMap_cons, hf, Option.map_none']
        rw [keyedFilterMap] at ih
        rw [ih hnd', htnone hk1]
        simp [hf]
    · have hb : (k1 == k) = false := by simpa using Ne.symm hk
      have hb2 : (k == k1) = false := by simpa using hk
      cases hf : f a with
      | some b =>
        simp only [keyedFilterMap, List.filterMap_cons, hf, Option.map_some']
        rw [List.countP_cons]
        simp only [hb]
        rw [List.lookup_cons]
        simp only [hb2]
        rw [keyedFilterMap] at ih
        rw [ih hnd']
        simp [hf]
      | none =>
        simp only [keyedFilterMap, List.filterMap_cons, hf, Option.map_none']
        rw [List.lookup_cons]
        simp only [hb2]
        rw [keyedFilterMap] at ih
        exact ih hnd'

theorem queryPairsGet_eq (ps : ParamBag) :
    queryPairsGet ps = keyedFilterMap gGet (injectLimit ps) := by
  rw [queryPairsGet, keyedFilterMap, filterParamsGet, List.map_filterMap]
  apply List.filterMap_congr
  intro p _
  obtain ⟨k, v⟩ := p
  cases v with
  | none => rfl
  | some w =>
    cases w with
    | str s => rfl
    | arr l =>
      cases l with
      | nil => rfl
      | cons x xs => rfl

theorem getVal_eq_some (ps : ParamBag) (k : String) (w : PValue) :
    getVal ps k = some w ↔ ps.lookup k = some (some w) := by
  rw [getVal]
  exact Option.join_eq_some

/-- C2 counterexample: the parameter-preparation step of `renderGet` and
`renderGetPaged` executes `params.limit = "100"` on the caller's own bag, so
for the caller bag `{id: "x"}` the key `limit` does not keep its
pre-call (absent) value: the claim that every key keeps its value is false. -/
theorem injectLimit_adds_limit_to_caller_bag :
    ¬ (∀ k : String, (injectLimit [("id", some (PValue.str "x"))]).lookup k =
        ([("id", some (PValue.str "x"))] : ParamBag).lookup k) :=
  fun h => absurd (h "limit") (by decide)

/-- C2 (amended): the parameter-preparation step never adds or changes any
key of the caller's bag other than `limit` (in particular it never adds
`cursor`, which is set only on the fresh filtered copy), and when the bag
already holds a truthy `limit` the bag is left entirely unchanged; but when
`limit` is absent or falsy, a `limit` key with value `"100"` is written into
the caller's object. -/
theorem paramFilter_mutation_scope (ps : ParamBag) (k : String) :
    (k ≠ "limit" → (injectLimit ps).lookup k = ps.lookup k) ∧
    (truthy (getVal ps "limit") = true → injectLimit ps = ps) := by
  constructor
  · intro hk
    rw [lookup_injectLimit, if_neg (fun hc => hk hc.1)]
  · intro ht
    rw [injectLimit, if_pos ht]

/-- C7: in `renderGet`, keys (other than `limit`, which is defaulted before
filtering) whose value is undefined or an empty array never occur in the
query pairs; a bag without a truthy `limit` yields `limit=100`; and any
other present scalar value passes through unchanged. -/
theorem renderGet_query_filtering_and_default_limit (ps : ParamBag) (k v : String) (hnd : NodupKeys ps) :
    (k ≠ "limit" → (getVal ps k = none ∨ getVal ps k = some (PValue.arr [])) →
      (queryPairsGet ps).countP (fun p => p.1 == k) = 0) ∧
    (truthy (getVal ps "limit") = false →
      (queryPairsGet ps).lookup "limit" = some "100") ∧
    (k ≠ "limit" → getVal ps k = some (PValue.str v) →
      (queryPairsGet ps).lookup k = some v) := by
  have hnd' : (((injectLimit ps)).map Prod.fst).Nodup := nodupKeys_injectLimit ps hnd
  refine ⟨?_, ?_, ?_⟩
  · intro hk hval
    have hinj : (injectLimit ps).lookup k = ps.lookup k := by
      rw [lookup_injectLimit, if_neg (fun hc => hk hc.1)]
    rw [queryPairsGet_eq, countP_keyedFilterMap gGet _ hnd' k, hinj]
    cases hv : ps.lookup k with
    | none => simp
    | some ov =>
      have hov : getVal ps k = ov := by rw [getVal, hv]; rfl
      rcases hval with h0 | h0 <;> rw [hov] at h0 <;> subst h0 <;> simp [gGet]
  · intro ht
    rw [queryPairsGet_eq, lookup_keyedFilterMap gGet _ hnd' "limit",
      lookup_injectLimit, if_pos ⟨rfl, ht⟩]
    rfl
  · intro hk hval
    rw [queryPairsGet_eq, lookup_keyedFilterMap gGet _ hnd' k,
      lookup_injectLimit, if_neg (fun hc => hk hc.1),
      (getVal_eq_some ps k (PValue.str v)).mp hval]
    rfl

/-- C8: a non-empty array value in a `renderGet` parameter bag is serialized
as exactly one query-pair occurrence of its key, whose value is the elements
joined with commas, never as repeated occurrences of the key. -/
theorem renderGet_array_comma_join_single_occurrence (ps : ParamBag) (k : String) (l : List String)
    (hnd : NodupKeys ps) (hv : getVal ps k = some (PValue.arr l)) (hne : l ≠ []) :
    (queryPairsGet ps).countP (fun p => p.1 == k) = 1 ∧
    (queryPairsGet ps).lookup k = some (jsJoin "," l) := by
  have hnd' : (((injectLimit ps)).map Prod.fst).Nodup := nodupKeys_injectLimit ps hnd
  have hcond : ¬ (k = "limit" ∧ truthy (getVal ps "limit") = false) := by
    rintro ⟨rfl, hf⟩
    rw [hv] at hf
    cases hf
  have hlk : ps.lookup k = some (some (PValue.arr l)) :=
    (getVal_eq_some ps k (PValue.arr l)).mp hv
  cases l with
  | nil => exact absurd rfl hne
  | cons x xs =>
    have hinj : (injectLimit ps).lookup k = ps.lookup k := by
      rw [lookup_injectLimit, if_neg hcond]
    constructor
    · rw [queryPairsGet_eq, countP_keyedFilterMap gGet _ hnd' k, hinj, hlk]
      rfl
    · rw [queryPairsGet_eq, lookup_keyedFilterMap gGet _ hnd' k, hinj, hlk]
      rfl

/-- Witness for `paramFilter_mutation_scope` at the bag `{id: "x"}` and keys
`cursor` and `limit`. -/
theorem paramFilter_mutation_scope_witness :
    (injectLimit [("id", some (PValue.str "x"))]).lookup "cursor" =
      ([("id", some (PValue.str "x"))] : ParamBag).lookup "cursor" ∧
    (injectLimit [("limit", some (PValue.str "15"))]) =
      [("limit", some (PValue.str "15"))] :=
  ⟨(paramFilter_mutation_scope [("id", some (PValue.str "x"))] "cursor").1 (by decide),
   (paramFilter_mutation_scope [("limit", some (PValue.str "15"))] "cursor").2 (by decide)⟩

/-- Witness for `renderGet_query_filtering_and_default_limit` at the bag
`{name: undefined, tags: [], id: "x"}`. -/
theorem renderGet_query_filtering_and_default_limit_witness :
    (queryPairsGet [("name", none), ("tags", some (PValue.arr [])),
        ("id", some (PValue.str "x"))]).countP (fun p => p.1 == "name") = 0 ∧
    (queryPairsGet [("name", none), ("tags", some (PValue.arr [])),
        ("id", some (PValue.str "x"))]).countP (fun p => p.1 == "tags") = 0 ∧
    (queryPairsGet [("name", none), ("tags", some (PValue.arr [])),
        ("id", some (PValue.str "x"))]).lookup "limit" = some "100" ∧
    (queryPairsGet [("name", none), ("tags", some (PValue.arr [])),
        ("id", some (PValue.str "x"))]).lookup "id" = some "x" :=
  ⟨(renderGet_query_filtering_and_default_limit _ "name" "" (by decide)).1
      (by decide) (Or.inl (by decide)),
   (renderGet_query_filtering_and_default_limit _ "tags" "" (by decide)).1
      (by decide) (Or.inr (by decide)),
   (renderGet_query_filtering_and_default_limit _ "name" "" (by decide)).2.1
      (by decide),
   (renderGet_query_filtering_and_default_limit _ "id" "x" (by decide)).2.2
      (by decide) (by decide)⟩

/-- Witness for `renderGet_array_comma_join_single_occurrence` at the bag
`{resource: ["a","b","c"]}`. -/
theorem renderGet_array_comma_join_single_occurrence_witness :
    (queryPairsGet [("resource", some (PValue.arr ["a", "b", "c"]))]).countP
        (fun p => p.1 == "resource") = 1 ∧
    (queryPairsGet [("resource", some (PValue.arr ["a", "b", "c"]))]).lookup
        "resource" = some (jsJoin "," ["a", "b", "c"]) :=
  renderGet_array_comma_join_single_occurrence _ "resource" ["a", "b", "c"]
    (by decide) (by decide) (by decide)

theorem runPaged_reqs_head (pages : List (List PageItem)) (ps : List (String × String)) :
    ∃ t, (runPaged pages ps).2 = ps :: t := by
  cases pages with
  | nil => exact ⟨[], rfl⟩
  | cons page rest =>
    by_cases h : page = []
    · subst h
      exact ⟨[], rfl⟩
    · rw [runPaged, dif_neg h]
      exact ⟨_, rfl⟩

theorem runPaged_cursor_invariant (pages : List (List PageItem)) :
    ∀ (ps : List (String × String)) (i : Nat),
      i + 1 < ((runPaged pages ps).2).length →
      ∀ hne : pages.getD i [] ≠ [],
      (((runPaged pages ps).2).getD (i + 1) []).lookup "cursor" =
        some ((pages.getD i []).getLast hne).cursor := by
  induction pages with
  | nil =>
    intro ps i hi hne
    simp [runPaged] at hi
  | cons page rest ih =>
    intro ps i hi hne
    by_cases h : page = []
    · subst h
      rw [runPaged.eq_def] at hi
      simp at hi
    · rw [runPaged, dif_neg h] at hi ⊢
      cases i with
      | zero =>
        obtain ⟨t, ht⟩ := runPaged_reqs_head rest
          (setKey ps "cursor" (page.getLast h).cursor)
        rw [List.getD_cons_succ, ht, List.getD_cons_zero, lookup_setKey_self]
        rfl
      | succ n =>
        rw [List.getD_cons_succ]
        have hi' : n + 1 < ((runPaged rest
            (setKey ps "cursor" (page.getLast h).cursor)).2).length := by
          simpa using hi
        have hne' : rest.getD n [] ≠ [] := by
          simpa using hne
        have hrec := ih (setKey ps "cursor" (page.getLast h).cursor) n hi' hne'
        rw [hrec]
        rfl

theorem runPaged_complete (pages : List (List PageItem))
    (hall : ∀ p ∈ pages, p ≠ []) :
    ∀ ps : List (String × String),
      (runPaged (pages ++ [[]]) ps).2.length = pages.length + 1 ∧
      (runPaged (pages ++ [[]]) ps).1 = pages.flatten := by
  induction pages with
  | nil =>
    intro ps
    constructor
    · rfl
    · rfl
  | cons page rest ih =>
    intro ps
    have h : page ≠ [] := hall page (List.mem_cons_self page rest)
    have hall' : ∀ p ∈ rest, p ≠ [] := fun p hp => hall p (List.mem_cons_of_mem page hp)
    have hrec := ih hall' (setKey ps "cursor" (page.getLast h).cursor)
    rw [List.cons_append, runPaged, dif_neg h]
    constructor
    · simp [hrec.1]
    · simp [hrec.2]

theorem runPaged_empty_stops (rest : List (List PageItem)) (ps : List (String × String)) :
    (runPaged ([] :: rest) ps).2.length = 1 ∧ (runPaged ([] :: rest) ps).1 = [] := by
  constructor <;> rfl

/-- C3: against a server answering pages of sizes 2, 2, 0, `renderGetPaged`
returns exactly the four elements of the first two pages in order, issues
exactly three requests, and the cursor of the 2nd and 3rd requests equals the
cursor of the last element of the previous page; in general, after every
non-empty page the next request's cursor is the cursor of the last element of
the current page. -/
theorem renderGetPaged_pages_two_two_zero_and_cursor_threading :
    ((runPaged pagesTwoTwoZero (initParamsPaged [])).1 =
        [⟨"c1", 1⟩, ⟨"c2", 2⟩, ⟨"c3", 3⟩, ⟨"c4", 4⟩] ∧
      (runPaged pagesTwoTwoZero (initParamsPaged [])).2.length = 3 ∧
      ((runPaged pagesTwoTwoZero (initParamsPaged [])).2.getD 1 []).lookup "cursor" =
        some "c2" ∧
      ((runPaged pagesTwoTwoZero (initParamsPaged [])).2.getD 2 []).lookup "cursor" =
        some "c4" ∧
      some "c2" = ((pagesTwoTwoZero.getD 0 []).getLast? ).map PageItem.cursor ∧
      some "c4" = ((pagesTwoTwoZero.getD 1 []).getLast? ).map PageItem.cursor) ∧
    (∀ (pages : List (List PageItem)) (ps : List (String × String)) (i : Nat),
      i + 1 < ((runPaged pages ps).2).length →
      ∀ hne : pages.getD i [] ≠ [],
      (((runPaged pages ps).2).getD (i + 1) []).lookup "cursor" =
        some ((pages.getD i []).getLast hne).cursor) :=
  ⟨by decide, fun pages ps i hi hne => runPaged_cursor_invariant pages ps i hi hne⟩

/-- Witness for the cursor-threading clause of
`renderGetPaged_pages_two_two_zero_and_cursor_threading` at a one-page server. -/
theorem renderGetPaged_cursor_threading_witness :
    ((runPaged [[PageItem.mk "a" 7]] []).2.getD 1 []).lookup "cursor" =
      some ((([[PageItem.mk "a" 7]] : List (List PageItem)).getD 0 []).getLast
        (by decide)).cursor :=
  renderGetPaged_pages_two_two_zero_and_cursor_threading.2
    [[PageItem.mk "a" 7]] [] 0 (by decide) (by decide)

/-- C4: the pagination loop of `renderGetPaged` has no iteration cap: for
every list of non-empty pages followed by an empty page, the loop performs
exactly one request per page plus the final empty-page request and returns
all elements; and a response with zero elements immediately ends the loop no
matter what the server would answer afterwards. -/
theorem renderGetPaged_loop_uncapped_terminates_on_empty_page :
    (∀ (pages : List (List PageItem)) (ps : List (String × String)),
      (∀ p ∈ pages, p ≠ []) →
      (runPaged (pages ++ [[]]) ps).2.length = pages.length + 1 ∧
      (runPaged (pages ++ [[]]) ps).1 = pages.flatten) ∧
    (∀ (rest : List (List PageItem)) (ps : List (String × String)),
      (runPaged ([] :: rest) ps).2.length = 1 ∧
      (runPaged ([] :: rest) ps).1 = []) :=
  ⟨fun pages ps hall => runPaged_complete pages hall ps,
   fun rest ps => runPaged_empty_stops rest ps⟩

/-- Witness for `renderGetPaged_loop_uncapped_terminates_on_empty_page` at a
two-page server followed by the empty page. -/
theorem renderGetPaged_loop_uncapped_witness :
    (runPaged ([[PageItem.mk "a" 1], [PageItem.mk "b" 2]] ++ [[]]) []).2.length = 3 :=
  (renderGetPaged_loop_uncapped_terminates_on_empty_page.1
    [[PageItem.mk "a" 1], [PageItem.mk "b" 2]] [] (by decide)).1

theorem jsStartsWith_append_self (p s : String) : jsStartsWith (p ++ s) p = true := by
  rw [jsStartsWith, String.data_append]
  rw [ List.isPrefixOf_iff_prefix]
  exact List.prefix_append _ _

theorem jsStartsWith_append_ne (p q s : String) (hlen : q.data.length = p.data.length)
    (hne : q ≠ p) : jsStartsWith (p ++ s) q = false := by
  by_contra hc
  rw [Bool.not_eq_false, jsStartsWith, String.data_append,
     List.isPrefixOf_iff_prefix] at hc
  have hq := List.prefix_iff_eq_take.mp hc
  rw [hlen, List.take_left] at hq
  exact hne (String.ext hq)

/-- C9: for every known identifier tag (srv, evm, crn, job, red, dpg, evg,
rgc) and every suffix string, exactly the classifier of that tag's resource
class accepts the string tag ++ "-" ++ suffix and every other classifier
rejects it: classifier `i` accepts the string built from tag `j` iff `i = j`. -/
theorem identifier_prefix_classification_exclusive (i j : Fin 8) (s : String) :
    (idClassifiers.getD (i : Nat) (fun _ => false))
      ((idPrefixTags.getD (j : Nat) "") ++ "-" ++ s) = true ↔ i = j := by
  fin_cases i <;> fin_cases j <;>
    simp +decide [idClassifiers, idPrefixTags, isServiceID, isEnvironmentID,
      isCronID, isJobID, isRedisID, isPostgresID, isEnvironmentGroupID,
      isRegistryCredentialID, jsStartsWith_append_self, jsStartsWith_append_ne]

theorem determineService_exact_of_multi (matchPred : String → String → Bool)
    (serviceObjs : List ServiceCursor) (input : String)
    (hid : isServiceID input = false)
    (hlen : 1 < (getServices matchPred serviceObjs input).length)
    (hex : ∃ s ∈ getServices matchPred serviceObjs input, s.name = input) :
    ∃ s, determineService matchPred serviceObjs input = .ok s ∧ s.name = input ∧
      s ∈ getServices matchPred serviceObjs input := by
  have hfind : ((getServices matchPred serviceObjs input).find?
      (fun s => s.name == input)).isSome := by
    rw [List.find?_isSome]
    obtain ⟨s0, hs0, hname⟩ := hex
    exact ⟨s0, hs0, by simpa using hname⟩
  obtain ⟨s, hs⟩ := Option.isSome_iff_exists.mp hfind
  refine ⟨s, ?_, by simpa using List.find?_some hs, List.mem_of_find?_eq_some hs⟩
  rw [determineService]
  rw [if_neg (by simp [hid])]
  rw [dif_neg (by omega)]
  rw [if_pos (by omega)]
  rw [hs]

theorem strContains_jsJoin_mem (sep x : String) :
    ∀ l : List String, x ∈ l → strContains (jsJoin sep l) x = true := by
  intro l
  induction l with
  | nil => intro hx; cases hx
  | cons y ys ih =>
    intro hx
    cases ys with
    | nil =>
      rw [List.mem_singleton] at hx
      subst hx
      exact strContains_refl x
    | cons z zs =>
      rcases List.mem_cons.mp hx with rfl | hx2
      · apply strContains_append_right
        apply strContains_append_right
        exact strContains_refl x
      · apply strContains_append_left
        exact ih hx2

theorem determineService_empty_notFound (matchPred : String → String → Bool)
    (serviceObjs : List ServiceCursor) (input : String)
    (hid : isServiceID input = false)
    (hz : getServices matchPred serviceObjs input = []) :
    determineService matchPred serviceObjs input =
      .errNotFound ("No services found with ID or name " ++ input) ∧
    strContains ("No services found with ID or name " ++ input) input = true := by
  constructor
  · rw [determineService]
    rw [if_neg (by simp [hid])]
    rw [dif_pos (by rw [hz]; rfl)]
  · apply strContains_append_left
    exact strContains_refl input

theorem determineService_multi_noExact_ambiguous (matchPred : String → String → Bool)
    (serviceObjs : List ServiceCursor) (input : String)
    (hid : isServiceID input = false)
    (hlen : 1 < (getServices matchPred serviceObjs input).length)
    (hnoex : ∀ s ∈ getServices matchPred serviceObjs input, s.name ≠ input) :
    ∃ msg, determineService matchPred serviceObjs input = .errAmbiguous msg ∧
      ∀ s ∈ getServices matchPred serviceObjs input,
        strContains msg (s.name ++ " (" ++ s.id ++ ")") = true := by
  have hfind : (getServices matchPred serviceObjs input).find?
      (fun s => s.name == input) = none := by
    rw [List.find?_eq_none]
    intro s hs
    simpa using hnoex s hs
  refine ⟨"Too many services found with " ++ input ++ ":\n" ++
      jsJoin "  \n" ((getServices matchPred serviceObjs input).map
        (fun s => s.name ++ " (" ++ s.id ++ ")")), ?_, ?_⟩
  · rw [determineService]
    rw [if_neg (by simp [hid])]
    rw [dif_neg (by omega)]
    rw [if_pos (by omega)]
    rw [hfind]
  · intro s hs
    apply strContains_append_left
    apply strContains_jsJoin_mem
    exact List.mem_map.mpr ⟨s, hs, rfl⟩

theorem determineService_single_ok (matchPred : String → String → Bool)
    (serviceObjs : List ServiceCursor) (input : String) (s : Service)
    (hid : isServiceID input = false)
    (hone : getServices matchPred serviceObjs input = [s]) :
    determineService matchPred serviceObjs input = .ok s := by
  rw [determineService]
  rw [if_neg (by simp [hid])]
  have h1 : (getServices matchPred serviceObjs input).length = 1 := by
    rw [hone]; rfl
  rw [dif_neg (by omega)]
  rw [if_neg (by omega)]
  have hhead : ∀ (l : List Service) (hl : l = [s]) (hn : l ≠ []), l.head hn = s := by
    intro l hl hn
    subst hl
    rfl
  exact congrArg DSOutcome.ok (hhead _ hone _)

/-- Witness for `identifier_prefix_classification_exclusive`: `isServiceID`
accepts `srv-xyz`, and `isRedisID` (index 4) rejects the job-tagged string
`job-xyz` (index 3). -/
theorem identifier_prefix_classification_exclusive_witness :
    (idClassifiers.getD 0 (fun _ => false)) ((idPrefixTags.getD 0 "") ++ "-" ++ "xyz") = true ∧
    ¬ (idClassifiers.getD 4 (fun _ => false)) ((idPrefixTags.getD 3 "") ++ "-" ++ "xyz") = true :=
  ⟨(identifier_prefix_classification_exclusive 0 0 "xyz").mpr rfl,
   fun hc => absurd ((identifier_prefix_classification_exclusive 4 3 "xyz").mp hc)
     (by decide)⟩

/-- C5: when more than one service name matches the resolver input and some
matching service's name is exactly the input, `determineService` returns an
exact-match service; in particular input `foo-prod` against services named
`foo-prod`, `foo-prod-staging` and `foo-prod-canary` resolves to the service
named exactly `foo-prod`. -/
theorem determineService_exact_match_tie_break :
    (∀ (matchPred : String → String → Bool) (serviceObjs : List ServiceCursor)
        (input : String),
      isServiceID input = false →
      1 < (getServices matchPred serviceObjs input).length →
      (∃ s ∈ getServices matchPred serviceObjs input, s.name = input) →
      ∃ s, determineService matchPred serviceObjs input = DSOutcome.ok s ∧
        s.name = input ∧ s ∈ getServices matchPred serviceObjs input) ∧
    determineService jsMatchSubstring fooServiceObjs "foo-prod" =
      DSOutcome.ok ⟨"srv-1", "foo-prod"⟩ :=
  ⟨fun matchPred serviceObjs input hid hlen hex =>
    determineService_exact_of_multi matchPred serviceObjs input hid hlen hex,
   by decide⟩

/-- Witness for `determineService_exact_match_tie_break` at the three
`foo-prod*` services. -/
theorem determineService_exact_match_tie_break_witness :
    ∃ s, determineService jsMatchSubstring fooServiceObjs "foo-prod" =
        DSOutcome.ok s ∧ s.name = "foo-prod" ∧
      s ∈ getServices jsMatchSubstring fooServiceObjs "foo-prod" :=
  determineService_exact_match_tie_break.1 jsMatchSubstring fooServiceObjs
    "foo-prod" (by decide) (by decide) ⟨⟨"srv-1", "foo-prod"⟩, by decide, rfl⟩

/-- C6: for a non-ID input, zero name matches fail with a Not-Found error
naming the input; multiple matches with no exact winner fail with an
Ambiguous-Match error whose message lists every matching service's name and
id; exactly one match returns that service. -/
theorem determineService_notFound_ambiguous_single :
    (∀ (matchPred : String → String → Bool) (serviceObjs : List ServiceCursor)
        (input : String),
      isServiceID input = false →
      getServices matchPred serviceObjs input = [] →
      determineService matchPred serviceObjs input =
        DSOutcome.errNotFound ("No services found with ID or name " ++ input) ∧
      strContains ("No services found with ID or name " ++ input) input = true) ∧
    (∀ (matchPred : String → String → Bool) (serviceObjs : List ServiceCursor)
        (input : String),
      isServiceID input = false →
      1 < (getServices matchPred serviceObjs input).length →
      (∀ s ∈ getServices matchPred serviceObjs input, s.name ≠ input) →
      ∃ msg, determineService matchPred serviceObjs input =
          DSOutcome.errAmbiguous msg ∧
        ∀ s ∈ getServices matchPred serviceObjs input,
          strContains msg (s.name ++ " (" ++ s.id ++ ")") = true) ∧
    (∀ (matchPred : String → String → Bool) (serviceObjs : List ServiceCursor)
        (input : String) (s : Service),
      isServiceID input = false →
      getServices matchPred serviceObjs input = [s] →
      determineService matchPred serviceObjs input = DSOutcome.ok s) :=
  ⟨fun matchPred serviceObjs input hid hz =>
    determineService_empty_notFound matchPred serviceObjs input hid hz,
   fun matchPred serviceObjs input hid hlen hnoex =>
    determineService_multi_noExact_ambiguous matchPred serviceObjs input hid hlen hnoex,
   fun matchPred serviceObjs input s hid hone =>
    determineService_single_ok matchPred serviceObjs input s hid hone⟩

/-- Witness for `determineService_notFound_ambiguous_single`: not-found on an
empty service list, ambiguity on `foo-a`/`foo-b` with input `foo`, and the
single-match case. -/
theorem determineService_notFound_ambiguous_single_witness :
    (determineService jsMatchSubstring [] "nonexistent" =
        DSOutcome.errNotFound ("No services found with ID or name " ++ "nonexistent") ∧
      strContains ("No services found with ID or name " ++ "nonexistent")
        "nonexistent" = true) ∧
    (∃ msg, determineService jsMatchSubstring
        [⟨"c1", ⟨"srv-a", "foo-a"⟩⟩, ⟨"c2", ⟨"srv-b", "foo-b"⟩⟩] "foo" =
          DSOutcome.errAmbiguous msg ∧
        ∀ s ∈ getServices jsMatchSubstring
            [⟨"c1", ⟨"srv-a", "foo-a"⟩⟩, ⟨"c2", ⟨"srv-b", "foo-b"⟩⟩] "foo",
          strContains msg (s.name ++ " (" ++ s.id ++ ")") = true) ∧
    determineService jsMatchSubstring [⟨"c1", ⟨"srv-a", "alpha"⟩⟩] "alpha" =
      DSOutcome.ok ⟨"srv-a", "alpha"⟩ :=
  ⟨determineService_notFound_ambiguous_single.1 jsMatchSubstring [] "nonexistent"
      (by decide) (by decide),
   determineService_notFound_ambiguous_single.2.1 jsMatchSubstring
      [⟨"c1", ⟨"srv-a", "foo-a"⟩⟩, ⟨"c2", ⟨"srv-b", "foo-b"⟩⟩] "foo"
      (by decide) (by decide) (by decide),
   determineService_notFound_ambiguous_single.2.2 jsMatchSubstring
      [⟨"c1", ⟨"srv-a", "alpha"⟩⟩] "alpha" ⟨"srv-a", "alpha"⟩
      (by decide) (by decide)⟩

/-- C10: an input starting with `srv-` makes `determineService` take the
fetch-by-id path unconditionally: it never performs list-and-match-by-name,
so a service whose display name begins with `srv-` can never be resolved by
name, no matter how many services carry that name. -/
theorem determineService_srv_input_bypasses_name_resolution :
    (∀ (matchPred : String → String → Bool) (serviceObjs : List ServiceCursor)
        (input : String),
      jsStartsWith input "srv-" = true →
      determineService matchPred serviceObjs input = DSOutcome.fetchById input) ∧
    (∀ (matchPred : String → String → Bool) (serviceObjs : List ServiceCursor)
        (input : String) (s : Service),
      jsStartsWith input "srv-" = true →
      determineService matchPred serviceObjs input ≠ DSOutcome.ok s) ∧
    determineService jsMatchSubstring
      [⟨"c", ⟨"srv-abc", "srv-myname"⟩⟩, ⟨"d", ⟨"srv-def", "srv-myname"⟩⟩]
      "srv-myname" = DSOutcome.fetchById "srv-myname" := by
  refine ⟨?_, ?_, by decide⟩
  · intro matchPred serviceObjs input h
    rw [determineService, if_pos (by simp [isServiceID, h])]
  · intro matchPred serviceObjs input s h
    rw [determineService, if_pos (by simp [isServiceID, h])]
    simp

/-- Witness for `determineService_srv_input_bypasses_name_resolution` on an
empty service list. -/
theorem determineService_srv_input_bypasses_witness :
    determineService jsMatchSubstring [] "srv-xyz" = DSOutcome.fetchById "srv-xyz" :=
  determineService_srv_input_bypasses_name_resolution.1 jsMatchSubstring []
    "srv-xyz" (by decide)
